import Mathlib

/-!
Verification development for the agentregistry repository.

The Go source is shallowly embedded: pure functions become Lean functions,
effectful functions (file system, environment) become functions over an
explicit environment record recording the effect trace.  Strings are
modelled by Lean `String` (a list of characters); the Go functions under
study only manipulate ASCII data, where byte-level and character-level
string operations agree.
-/

namespace AgentRegistry

/-! ## Generic string helpers (embedding of Go's strings package primitives) -/

/-- Does the list `pat` occur at the head of `hay`? -/
def listStartsWith : List Char → List Char → Bool
  | _, [] => true
  | [], _ :: _ => false
  | a :: as, b :: bs => a = b && listStartsWith as bs

/-- Does the list `pat` occur contiguously anywhere inside `hay`?
Embeds `strings.Contains` (for ASCII patterns the byte-level and
character-level notions coincide). -/
def listContainsSeq : List Char → List Char → Bool
  | [], pat => pat.isEmpty
  | h :: t, pat => listStartsWith (h :: t) pat || listContainsSeq t pat

/-- Embedding of Go `strings.Contains`. -/
def strContains (s pat : String) : Bool :=
  listContainsSeq s.toList pat.toList

/-- Embedding of Go `strings.HasSuffix`. -/
def strEndsWith (s suf : String) : Bool :=
  suf.toList.isSuffixOf s.toList

/-! ## `generateInternalName` (src/unnamed/part_007, registry translator)

The Go function is a chain of `strings.ReplaceAll` calls with single-character
patterns and the single-character replacement `'-'`, with `strings.ToLower`
applied after the first (space) replacement.  A single-character
`strings.ReplaceAll` is exactly a character-wise map, embedded by
`replaceAllChar`; `strings.ToLower` is embedded by `Char.toLower`, which
agrees with Go on the Basic Latin range manipulated here. -/

/-- `strings.ReplaceAll s (String.singleton c) (String.singleton r)` as a map. -/
def replaceAllChar (s : List Char) (c r : Char) : List Char :=
  s.map fun x => if x = c then r else x

/-- The single-character patterns of the `strings.ReplaceAll` calls that follow
the `strings.ToLower` step in `generateInternalName`, in source order
(`.` and the space appear twice in the source). -/
def laterReplacements : List Char :=
  ['.', '_', '/', ':', '@', '#', '$', '%', '^', '&', '*', '(', ')',
   '[', ']', '\x7b', '\x7d', '|', '\\', '.', ',', '!', '?', ' ']

/-- Embedding of `generateInternalName` from the registry translator. -/
def generateInternalName (server : String) : String :=
  let name := (replaceAllChar server.toList ' ' '-').map Char.toLower
  (laterReplacements.foldl (fun acc c => replaceAllChar acc c '-') name).asString

/-- The full character set the Go code replaces by `'-'` (the space from the
first `ReplaceAll`, then the later patterns). -/
def goReplacedChars : List Char := ' ' :: laterReplacements

/-! Definitions below follow the words of claim C1 (the spec's normalization:
lowercase, replace every character outside `[a-z0-9-]`, collapse runs of `-`,
trim leading and trailing `-`), for comparison against the source function. -/

/-- Is `c` in the DNS-1123 class `[a-z0-9-]`?  (Claim wording.) -/
def dnsCharOk (c : Char) : Bool :=
  ('a' ≤ c && c ≤ 'z') || ('0' ≤ c && c ≤ '9') || c = '-'

/-- Collapse runs of consecutive `'-'` to a single `'-'`.  (Claim wording.) -/
def collapseDashes : List Char → List Char
  | [] => []
  | '-' :: '-' :: rest => collapseDashes ('-' :: rest)
  | c :: rest => c :: collapseDashes rest

/-- Drop leading `'-'` characters.  (Claim wording.) -/
def trimLeadDash : List Char → List Char
  | '-' :: rest => trimLeadDash rest
  | l => l

/-- The internal-name derivation as claim C1 states it: lowercase, replace
every character outside `[a-z0-9-]` by `'-'`, collapse runs, trim. -/
def claimedInternalName (s : String) : String :=
  let base := (s.toList.map Char.toLower).map fun c => if dnsCharOk c then c else '-'
  ((trimLeadDash (collapseDashes base)).reverse |> trimLeadDash).reverse.asString

/-! ## `getAgentGatewayImage` / `validateVersion` (src/unnamed/part_007)

`os.Getenv` returns `""` for an unset variable, so the environment lookup is
embedded as a plain `String` argument. -/

def agentGatewayRepository : String := "ghcr.io/agentgateway/agentgateway"

def defaultAgentGatewayVersion : String := "0.9.0"

/-- Character class `[a-zA-Z0-9.\-]` of `versionRegex`. -/
def versionAllowedChar (c : Char) : Bool :=
  ('a' ≤ c && c ≤ 'z') || ('A' ≤ c && c ≤ 'Z') || ('0' ≤ c && c ≤ '9') ||
    c = '.' || c = '-'

/-- Embedding of `versionRegex.MatchString`: the anchored Go regular
expression matches exactly the non-empty strings all of whose characters lie
in the class. -/
def versionRegexMatches (s : String) : Bool :=
  !s.isEmpty && s.toList.all versionAllowedChar

/-- Embedding of `validateVersion`. -/
def validateVersion (version : String) : Except String Unit :=
  if !versionRegexMatches version then
    .error ("invalid version format: " ++ version ++
      " (only alphanumeric characters, dots, and hyphens are allowed)")
  else
    .ok ()

/-- Embedding of `getAgentGatewayImage`; `envVersion` is the value of
`TRANSPORT_ADAPTER_VERSION` (empty when unset). -/
def getAgentGatewayImage (envVersion : String) : String :=
  if envVersion = "" then
    agentGatewayRepository ++ ":" ++ defaultAgentGatewayVersion ++ "-musl"
  else
    match validateVersion envVersion with
    | .error _ => agentGatewayRepository ++ ":" ++ defaultAgentGatewayVersion ++ "-musl"
    | .ok _ => agentGatewayRepository ++ ":" ++ envVersion ++ "-musl"

/-! ## Transport resolver -/

/-- Modelled from the spec: `resolveTransport` — the implementation is not
under src/ (only its test `TestResolveTransport` in src/internal/cli/run.go
is).  Modelled from §4.2's transport-resolver rules:
`(stdio, _) → (stdio, "")`;
`(streamable-http, "") → (streamable-http, "http://localhost:3000/mcp")`;
any other transport type is a validation error. -/
def resolveTransport (transportType transportURL : String) :
    Except String (String × String) :=
  if transportType = "stdio" then .ok ("stdio", "")
  else if transportType = "streamable-http" then
    if transportURL = "" then .ok ("streamable-http", "http://localhost:3000/mcp")
    else .ok ("streamable-http", transportURL)
  else .error "invalid transport"

/-! ## Docker-Compose translator (src/unnamed/part_007, package dockercompose)

The `types.ServiceConfig` fields actually set by the translator are embedded;
`os.Getenv("TRANSPORT_ADAPTER_VERSION")` is threaded as the `envVersion`
argument, and the Go `map[string]types.ServiceConfig` is embedded as an
association list built in iteration order (with the same duplicate check). -/

structure ServicePortConfig where
  portName : String
  target : Nat
  published : String
deriving DecidableEq, Repr

structure ServiceVolumeConfig where
  vtype : String
  source : String
  target : String
deriving DecidableEq, Repr

structure ServiceConfig where
  name : String
  image : String
  command : List String
  ports : List ServicePortConfig
  volumes : List ServiceVolumeConfig
deriving DecidableEq, Repr

structure MCPServerDeployment where
  image : String
  port : Nat
  cmd : String
  args : List String
  env : List (String × String)
deriving DecidableEq, Repr

structure MCPServer where
  name : String
  deployment : MCPServerDeployment
  transportType : String
deriving DecidableEq, Repr

def TransportTypeStdio : String := "stdio"

def TransportTypeHTTP : String := "http"

structure DesiredState where
  mcpServers : List MCPServer
deriving Repr

structure ComposeProject where
  projectName : String
  workingDir : String
  services : List (String × ServiceConfig)
deriving Repr

/-- Embedding of `translateAgentGatewayService`. -/
def translateAgentGatewayService (envVersion composeWorkingDir : String)
    (agentGatewayPort : Nat) : Except String ServiceConfig :=
  if agentGatewayPort = 0 then .error "agent gateway port must be specified"
  else .ok
    { name := "agent_gateway"
      image := getAgentGatewayImage envVersion
      command := ["-f", "/config/local.yaml"]
      ports := [{ portName := "http", target := agentGatewayPort,
                  published := toString agentGatewayPort }]
      volumes := [{ vtype := "volume",
                    source := composeWorkingDir ++ "/agent_gateway",
                    target := "/config" }] }

/-- Embedding of `translateMCPServerToServiceConfig`.  Note that the Go code
computes the image-defaulting chain into the local variable `image` but the
returned `types.ServiceConfig` sets `Image: getAgentGatewayImage()`; the
embedding reproduces that faithfully. -/
def translateMCPServerToServiceConfig (envVersion composeWorkingDir : String)
    (server : MCPServer) : Except String ServiceConfig :=
  let image := server.deployment.image
  let image := if image = "" ∧ server.deployment.cmd = "uvx" then
    "ghcr.io/astral-sh/uv:debian" else image
  let image := if image = "" ∧ server.deployment.cmd = "npx" then
    "node:24-alpine3.21" else image
  if image = "" then
    .error ("image must be specified for MCPServer " ++ server.name ++
      " or the command must be 'uvx' or 'npx'")
  else .ok
    { name := server.name
      image := getAgentGatewayImage envVersion
      command := ["-f", "/config/local.yaml"]
      ports := []
      volumes := [{ vtype := "volume",
                    source := composeWorkingDir ++ "/agent_gateway",
                    target := "/config" }] }

/-- The per-MCPServer loop body of `TranslateRuntimeConfig`: skip non-http
servers, reject duplicate names, translate the rest. -/
def addMCPServices (envVersion composeWorkingDir : String) :
    List MCPServer → List (String × ServiceConfig) →
      Except String (List (String × ServiceConfig))
  | [], acc => .ok acc
  | server :: rest, acc =>
    if server.transportType ≠ TransportTypeHTTP then
      addMCPServices envVersion composeWorkingDir rest acc
    else if acc.any (·.1 = server.name) then
      .error ("duplicate MCPServer name found: " ++ server.name)
    else
      match translateMCPServerToServiceConfig envVersion composeWorkingDir server with
      | .error e => .error ("failed to translate MCPServer " ++ server.name ++
          " to service config: " ++ e)
      | .ok cfg => addMCPServices envVersion composeWorkingDir rest
          (acc ++ [(server.name, cfg)])

/-- Embedding of `TranslateRuntimeConfig` (the compose project; the separate
agent-gateway config file is outside the claims considered here). -/
def TranslateRuntimeConfig (envVersion composeWorkingDir : String)
    (agentGatewayPort : Nat) (desired : DesiredState) :
    Except String ComposeProject := do
  let gw ← match translateAgentGatewayService envVersion composeWorkingDir agentGatewayPort with
    | .error e => .error ("failed to translate agent gateway service: " ++ e)
    | .ok gw => .ok gw
  let services ← addMCPServices envVersion composeWorkingDir desired.mcpServers
    [("agent_gateway", gw)]
  .ok { projectName := "ai_registry", workingDir := composeWorkingDir,
        services := services }

/-! ## `getComposeYAML` (src/unnamed/part_000, package daemon)

The function reads `runtime.GOOS`, the home directory, and the kubeconfig
file, parses/marshals YAML via gopkg.in/yaml.v3, and writes the patched copy.
These effects are embedded by a `DaemonEnv` record: `userHomeDir` and
`kubeconfigContent` are the results of `os.UserHomeDir`/`os.ReadFile`
(`none` = error), `parseYaml`/`marshalYaml` stand for the YAML codec
(`none` = error), and `mkdirOk`/`writeOk` say whether `os.MkdirAll` and
`os.WriteFile` succeed.  The result records the returned YAML plus the list
of files successfully written (there are no other writes in the function, so
the trace is exactly this list).  `filepath.Join` on the literal components
used here is plain concatenation with `/`. -/

structure ClusterData where
  server : String
  insecureSkipTlsVerify : Option Bool
  certificateAuthorityData : Option String
  certificateAuthority : Option String
  otherFields : List (String × String)
deriving DecidableEq, Repr

/-- A kubeconfig document: the `clusters` key (absent or not a list ⇒ `none`;
entries that are not maps, which the loop skips, are `none`), plus the other
top-level keys (opaque, untouched by the patch). -/
structure Kubeconfig where
  clusters : Option (List (Option ClusterData))
  otherTopLevel : List (String × String)
deriving DecidableEq, Repr

structure DaemonEnv where
  goos : String
  userHomeDir : Option String
  kubeconfigContent : Option String
  parseYaml : String → Option Kubeconfig
  marshalYaml : Kubeconfig → Option String
  mkdirOk : Bool
  writeOk : Bool

structure ComposeResult where
  yaml : String
  writes : List (String × String)
deriving DecidableEq, Repr

/-- The per-cluster body of the patch loop in `getComposeYAML`. -/
def patchClusterData (cd : ClusterData) : ClusterData :=
  if strContains cd.server "localhost" || strContains cd.server "127.0.0.1" then
    { cd with
      server := (cd.server.replace "localhost" "host.docker.internal").replace
        "127.0.0.1" "host.docker.internal"
      insecureSkipTlsVerify := some true
      certificateAuthorityData := none
      certificateAuthority := none }
  else cd

/-- The patch applied to the parsed kubeconfig by `getComposeYAML`. -/
def patchKubeconfig (kc : Kubeconfig) : Kubeconfig :=
  match kc.clusters with
  | none => kc
  | some cs => { kc with clusters := some (cs.map (Option.map patchClusterData)) }

/-- Embedding of `getComposeYAML`; `composeYAML` is the configured
`d.config.ComposeYAML`. -/
def getComposeYAML (env : DaemonEnv) (composeYAML : String) : ComposeResult :=
  if env.goos ≠ "darwin" then ⟨composeYAML, []⟩
  else match env.userHomeDir with
  | none => ⟨composeYAML, []⟩
  | some homeDir =>
    match env.kubeconfigContent with
    | none => ⟨composeYAML, []⟩
    | some content =>
      if !strContains content "localhost" && !strContains content "127.0.0.1" then
        ⟨composeYAML, []⟩
      else match env.parseYaml content with
      | none => ⟨composeYAML, []⟩
      | some kubeconfig =>
        match env.marshalYaml (patchKubeconfig kubeconfig) with
        | none => ⟨composeYAML, []⟩
        | some patchedBytes =>
          if !env.mkdirOk then ⟨composeYAML, []⟩
          else if !env.writeOk then ⟨composeYAML, []⟩
          else
            let kubeconfigPatchedPath := homeDir ++ "/.arctl/kubeconfig"
            ⟨composeYAML.replace "~/.kube/config:/root/.kube/config"
                (kubeconfigPatchedPath ++ ":/root/.kube/config"),
             [(kubeconfigPatchedPath, patchedBytes)]⟩

/-- A concrete local-cluster kubeconfig cluster entry, used as witness data. -/
def c4WitnessCluster : ClusterData :=
  { server := "https://127.0.0.1:6443", insecureSkipTlsVerify := none,
    certificateAuthorityData := some "CA", certificateAuthority := none,
    otherFields := [] }

/-- A concrete parsed kubeconfig, used as witness data. -/
def c4WitnessKubeconfig : Kubeconfig :=
  { clusters := some [some c4WitnessCluster], otherTopLevel := [("apiVersion", "v1")] }

/-- A concrete macOS environment in which every patching step succeeds. -/
def c4WitnessEnv : DaemonEnv :=
  { goos := "darwin", userHomeDir := some "/Users/u",
    kubeconfigContent := some "server: https://127.0.0.1:6443",
    parseYaml := fun _ => some c4WitnessKubeconfig,
    marshalYaml := fun _ => some "patched-kubeconfig",
    mkdirOk := true, writeOk := true }

/-- A concrete macOS environment in which the home directory lookup fails. -/
def c10WitnessEnv : DaemonEnv :=
  { goos := "darwin", userHomeDir := none, kubeconfigContent := none,
    parseYaml := fun _ => none, marshalYaml := fun _ => none,
    mkdirOk := true, writeOk := true }

/-! ## `ValidateOCI` (implementation not under src/; modelled from the spec)

Only `oci_test.go` is in src/.  The validator is modelled from spec §3
("OCI packages") and §4.2 ("oci" bullet): old-format fields are rejected, the
reference is parsed (registry host defaulting to `docker.io` when the first
path component is not a host), the host allowlist `{docker.io, ghcr.io,
*.pkg.dev}` is enforced, and the image's canonical MCP annotation must exist
and equal the Server name.  The manifest fetch is embedded by the
`imageLabel` argument: the value of the canonical MCP annotation on the
referenced image (`none` = absent). -/

structure OCIPackage where
  identifier : String
  registryBaseUrl : String
  version : String
  fileSha256 : String
deriving DecidableEq, Repr

/-- Split a string at the first `'/'`, if any. -/
def splitFirstSlash (s : String) : Option (String × String) :=
  match s.toList.splitOnP (· = '/') with
  | [] => none
  | [_] => none
  | fst :: rest =>
    some (fst.asString, (String.intercalate "/" (rest.map List.asString)))

/-- Modelled from the spec: the registry host of an OCI reference
(`registry/repository[:tag|@digest]`); a first component that does not look
like a host (no `.` or `:`, not `localhost`) means the default registry
`docker.io`. -/
def refRegistryHost (identifier : String) : String :=
  match splitFirstSlash identifier with
  | none => "docker.io"
  | some (fst, _) =>
    if strContains fst "." || strContains fst ":" || fst = "localhost" then fst
    else "docker.io"

/-- Modelled from the spec: minimal well-formedness of an OCI reference
(non-empty, no spaces, non-empty repository part). -/
def parseOCIRef (identifier : String) : Option String :=
  if identifier = "" || strContains identifier " " then none
  else some (refRegistryHost identifier)

/-- Is the registry host on the allowlist `{docker.io, ghcr.io, *.pkg.dev}`? -/
def ociHostAllowed (host : String) : Bool :=
  host = "docker.io" || host = "ghcr.io" || strEndsWith host ".pkg.dev"

/-- Modelled from the spec: `ValidateOCI`. -/
def ValidateOCI (pkg : OCIPackage) (serverName : String)
    (imageLabel : Option String) : Except String Unit :=
  if pkg.identifier = "" then .error "package identifier is required"
  else if pkg.registryBaseUrl ≠ "" then
    .error "OCI packages must not have 'registryBaseUrl' field"
  else if pkg.version ≠ "" then
    .error "OCI packages must not have 'version' field"
  else if pkg.fileSha256 ≠ "" then
    .error "OCI packages must not have 'fileSha256' field"
  else match parseOCIRef pkg.identifier with
  | none => .error ("invalid OCI reference: " ++ pkg.identifier)
  | some host =>
    if !ociHostAllowed host then
      .error ("unsupported OCI registry: " ++ host)
    else match imageLabel with
    | none => .error "missing required annotation io.modelcontextprotocol.server.name"
    | some v =>
      if v = serverName then .ok ()
      else .error ("ownership validation failed. Expected annotation " ++
        "io.modelcontextprotocol.server.name=" ++ serverName ++ ", got " ++ v)

/-! ## Kubernetes translator (implementation not under src/; modelled from the spec)

Only the test file (src/unnamed/part_005, package kagent) is in src/.  The
agent/ConfigMap part of the translator is modelled from spec §4.5
("Kubernetes") and the test expectations: `Agent{name=<agent>-<version>}`,
`ConfigMap{name=<agent>-mcp-config, data["mcp-servers.json"] =
JSON(agent.resolvedMCPRefs)}` when the agent references MCP servers, and a
`/config` mount of that ConfigMap under volume `mcp-config`.  JSON documents
are modelled structurally (`JsonV`) rather than as serialized text; the
MCPServer / RemoteMCPServer resources are outside the claims considered
here. -/

inductive JsonV where
  | str (s : String)
  | arr (xs : List JsonV)
  | obj (fields : List (String × JsonV))
deriving Repr

structure ResolvedMCPServerConfig where
  name : String
  rtype : String
  url : String
  headers : List (String × String)
deriving DecidableEq, Repr

structure KAgent where
  name : String
  version : String
  image : String
  env : List (String × String)
  resolvedMCPServers : List ResolvedMCPServerConfig
deriving Repr

structure KDesiredState where
  agents : List KAgent
deriving Repr

structure KVolume where
  name : String
  configMapName : String
deriving DecidableEq, Repr

structure KVolumeMount where
  name : String
  mountPath : String
deriving DecidableEq, Repr

structure AgentCR where
  name : String
  image : String
  volumes : List KVolume
  volumeMounts : List KVolumeMount
deriving Repr

structure KConfigMap where
  name : String
  data : List (String × JsonV)
deriving Repr

structure KubernetesConfig where
  agents : List AgentCR
  configMaps : List KConfigMap
deriving Repr

def encodeHeaders (hs : List (String × String)) : JsonV :=
  .obj (hs.map fun p => (p.1, .str p.2))

/-- The JSON object serialized for one resolved MCP-server reference. -/
def encodeRef (r : ResolvedMCPServerConfig) : JsonV :=
  .obj [("name", .str r.name), ("type", .str r.rtype), ("url", .str r.url),
        ("headers", encodeHeaders r.headers)]

/-- `JSON(agent.resolvedMCPRefs)`: the array written to `mcp-servers.json`. -/
def encodeRefs (rs : List ResolvedMCPServerConfig) : JsonV :=
  .arr (rs.map encodeRef)

def decodeHeaders : List (String × JsonV) → Option (List (String × String))
  | [] => some []
  | (k, .str v) :: rest => (decodeHeaders rest).map ((k, v) :: ·)
  | _ => none

def decodeRef : JsonV → Option ResolvedMCPServerConfig
  | .obj [("name", .str n), ("type", .str t), ("url", .str u),
          ("headers", .obj hs)] =>
    (decodeHeaders hs).map fun headers => ⟨n, t, u, headers⟩
  | _ => none

def decodeRefList : List JsonV → Option (List ResolvedMCPServerConfig)
  | [] => some []
  | x :: rest =>
    match decodeRef x, decodeRefList rest with
    | some r, some rs => some (r :: rs)
    | _, _ => none

/-- Reading `mcp-servers.json` back. -/
def decodeRefs : JsonV → Option (List ResolvedMCPServerConfig)
  | .arr xs => decodeRefList xs
  | _ => none

/-- The `Agent{name=<agent>-<version>}` resource name. -/
def agentFullName (a : KAgent) : String :=
  a.name ++ "-" ++ a.version

/-- Modelled from the spec: the Agent custom resource the Kubernetes
translator emits for one agent. -/
def translateAgentK8s (a : KAgent) : AgentCR :=
  if a.resolvedMCPServers.isEmpty then
    { name := agentFullName a, image := a.image, volumes := [], volumeMounts := [] }
  else
    { name := agentFullName a
      image := a.image
      volumes := [{ name := "mcp-config",
                    configMapName := agentFullName a ++ "-mcp-config" }]
      volumeMounts := [{ name := "mcp-config", mountPath := "/config" }] }

/-- Modelled from the spec: the ConfigMap emitted for one agent (none when the
agent references no MCP servers). -/
def agentConfigMap (a : KAgent) : Option KConfigMap :=
  if a.resolvedMCPServers.isEmpty then none
  else some { name := agentFullName a ++ "-mcp-config"
              data := [("mcp-servers.json", encodeRefs a.resolvedMCPServers)] }

/-- Modelled from the spec: the agent/ConfigMap part of the Kubernetes
translator's `TranslateRuntimeConfig`. -/
def translateRuntimeConfigK8s (desired : KDesiredState) : KubernetesConfig :=
  { agents := desired.agents.map translateAgentK8s
    configMaps := desired.agents.filterMap agentConfigMap }

/-- The concrete two-reference agent of the spec's Kubernetes scenario, used
as witness data. -/
def c7WitnessAgent : KAgent :=
  { name := "test-agent", version := "v1", image := "agent-image:latest",
    env := [("ENV_VAR", "value")],
    resolvedMCPServers :=
      [{ name := "sqlite", rtype := "command", url := "", headers := [] },
       { name := "brave-search", rtype := "remote",
         url := "http://brave-search:8080/mcp",
         headers := [("X-Custom", "header-value")] }] }

/-- A desired state holding exactly the witness agent. -/
def c7WitnessState : KDesiredState := { agents := [c7WitnessAgent] }

/-! ## Deployments store (src/unnamed/part_008, SQL migrations)

The two migrations are embedded as a relational model: a table is a list of
rows; `INSERT`/`UPDATE`/`DELETE` honour the primary key, the `CHECK`
constraints, and the `BEFORE UPDATE` trigger that sets `updated_at = NOW()`.
Column defaults are resolved by the caller before the insert.  SQL `trim`
strips space characters from both ends (`btrim` with `' '`). -/

structure DeploymentRow where
  server_name : String
  version : String
  deployed_at : Nat
  updated_at : Nat
  status : String
  config : String
  prefer_remote : Bool
  resource_type : String
deriving DecidableEq, Repr

/-- SQL `trim(s)`: strip spaces from both ends. -/
def sqlTrim (s : String) : String :=
  (((s.toList.dropWhile (· = ' ')).reverse.dropWhile (· = ' ')).reverse).asString

/-- `CHECK (status IN ('active', 'stopped', 'failed'))`. -/
def statusValid (s : String) : Bool :=
  s = "active" || s = "stopped" || s = "failed"

/-- `CHECK (resource_type IN ('mcp', 'agent'))` (second migration). -/
def resourceTypeValid (s : String) : Bool :=
  s = "mcp" || s = "agent"

/-- All `CHECK` constraints of the deployments table on one row. -/
def rowChecksOk (r : DeploymentRow) : Bool :=
  statusValid r.status
    && decide ((sqlTrim r.server_name).length > 0)
    && decide ((sqlTrim r.version).length > 0)
    && resourceTypeValid r.resource_type

/-- `INSERT` into deployments: primary-key uniqueness on `server_name`, then
the check constraints. -/
def insertDeployment (table : List DeploymentRow) (r : DeploymentRow) :
    Except String (List DeploymentRow) :=
  if table.any (·.server_name = r.server_name) then
    .error "duplicate key value violates unique constraint deployments_pkey"
  else if !rowChecksOk r then
    .error "new row violates check constraint"
  else .ok (table ++ [r])

/-- The row transformation of an `UPDATE ... WHERE p SET`-style statement:
the `BEFORE UPDATE` trigger overwrites `updated_at` with `NOW()` on every
modified row. -/
def applyUpdate (now : Nat) (p : DeploymentRow → Bool)
    (f : DeploymentRow → DeploymentRow) (table : List DeploymentRow) :
    List DeploymentRow :=
  table.map fun r => if p r then { f r with updated_at := now } else r

/-- `UPDATE deployments SET ... WHERE p`: the trigger runs, then the check
constraints and the primary key are re-validated on the result. -/
def updateDeployments (now : Nat) (table : List DeploymentRow)
    (p : DeploymentRow → Bool) (f : DeploymentRow → DeploymentRow) :
    Except String (List DeploymentRow) :=
  if !((applyUpdate now p f table).all rowChecksOk) then
    .error "updated row violates check constraint"
  else if !(((applyUpdate now p f table).map (·.server_name)).Nodup : Bool) then
    .error "duplicate key value violates unique constraint deployments_pkey"
  else .ok (applyUpdate now p f table)

/-- `DELETE FROM deployments WHERE p`. -/
def deleteDeployments (table : List DeploymentRow) (p : DeploymentRow → Bool) :
    List DeploymentRow :=
  table.filter fun r => !(p r)

/-- The table invariant: every row passes the checks, and `server_name` is a
primary key (at most one row per name). -/
def DeploymentsWF (table : List DeploymentRow) : Prop :=
  (∀ r ∈ table, rowChecksOk r = true) ∧ (table.map (·.server_name)).Nodup

/-- Claim C9's stronger non-emptiness reading: trimming all whitespace
characters, not only spaces. -/
def whitespaceTrim (s : String) : String :=
  (((s.toList.dropWhile Char.isWhitespace).reverse.dropWhile
      Char.isWhitespace).reverse).asString

/-! # Theorems -/

/-! ## Claim C1: internal-name derivation -/

theorem foldl_replaceAllChar (cs : List Char) (l : List Char) :
    cs.foldl (fun acc c => replaceAllChar acc c '-') l
      = l.map (fun x => cs.foldl (fun y c => if y = c then '-' else y) x) := by
  induction cs generalizing l with
  | nil => simp [List.foldl]
  | cons c cs ih =>
    simp only [List.foldl_cons]
    rw [ih]
    simp [replaceAllChar, List.map_map, Function.comp]

theorem foldl_dashStep_eq (cs : List Char) (hd : '-' ∉ cs) (y : Char) :
    cs.foldl (fun y c => if y = c then '-' else y) y = if y ∈ cs then '-' else y := by
  induction cs generalizing y with
  | nil => simp
  | cons c cs ih =>
    simp only [List.foldl_cons]
    by_cases h : y = c
    · subst h
      simp only [if_pos rfl]
      rw [ih (fun hm => hd (List.mem_cons_of_mem _ hm))]
      simp [List.mem_cons]
    · rw [if_neg h, ih (fun hm => hd (List.mem_cons_of_mem _ hm))]
      simp [List.mem_cons, h]

theorem toLower_ne_space {c : Char} (h : c ≠ ' ') : c.toLower ≠ ' ' := by
  by_cases hc : 65 ≤ c.toNat ∧ c.toNat ≤ 90
  · obtain ⟨h1, h2⟩ := hc
    have hl : c.toLower = Char.ofNat (c.toNat + 32) := by
      simp [Char.toLower, ge_iff_le, h1, h2]
    rw [hl]
    intro heq
    rcases Nat.exists_eq_add_of_le h1 with ⟨k, hk⟩
    rw [hk] at heq h2
    have hk25 : k ≤ 25 := by omega
    revert heq
    interval_cases k <;> decide
  · have hl : c.toLower = c := by
      simp [Char.toLower, ge_iff_le]
      intro h1 h2
      exact absurd ⟨h1, h2⟩ hc
    rw [hl]
    exact h

theorem generateInternalName_charStep (x : Char) :
    laterReplacements.foldl (fun y c => if y = c then '-' else y)
        ((if x = ' ' then '-' else x).toLower)
      = if x.toLower ∈ goReplacedChars then '-' else x.toLower := by
  have hd : '-' ∉ laterReplacements := by decide
  by_cases hx : x = ' '
  · subst hx; decide
  · rw [if_neg hx, foldl_dashStep_eq _ hd]
    simp [goReplacedChars, List.mem_cons, toLower_ne_space hx]

/-- `generateInternalName` is exactly: lowercase, then replace every
character of the fixed set `goReplacedChars` by `'-'`. -/
theorem generateInternalName_eq (s : String) :
    generateInternalName s
      = ((s.toList.map Char.toLower).map
          fun c => if c ∈ goReplacedChars then '-' else c).asString := by
  simp only [generateInternalName]
  rw [foldl_replaceAllChar]
  unfold replaceAllChar
  rw [List.map_map, List.map_map, List.map_map]
  refine congrArg List.asString ?_
  apply List.map_congr_left
  intro x _
  simp only [Function.comp_apply]
  exact generateInternalName_charStep x

/-- Claim C1, counterexample: on the name `".a+b."` the code produces
`"-a+b-"` (the `'+'` is not replaced, the leading and trailing `'-'` are not
trimmed), while the claimed derivation produces `"a-b"`. -/
theorem c1_internal_name_counterexample :
    generateInternalName ".a+b." ≠ claimedInternalName ".a+b." := by decide

/-- Claim C1 (amended): the derived internal name equals the name lowercased
with every character of the fixed set
`{' ', '.', '_', '/', ':', '@', '#', '$', '%', '^', '&', '*', '(', ')', '[',
']', '{', '}', '|', '\', ',', '!', '?'}` replaced by `'-'`; characters
outside `[a-z0-9-]` that are not in this set are kept, runs of `'-'` are not
collapsed, and leading/trailing `'-'` are not trimmed.  The derivation is
deterministic. -/
theorem c1_internal_name_amended (s : String) :
    generateInternalName s
      = ((s.toList.map Char.toLower).map
          fun c => if c ∈ goReplacedChars then '-' else c).asString
    ∧ ∀ t : String, s = t → generateInternalName s = generateInternalName t :=
  ⟨generateInternalName_eq s, fun _ ht => by rw [ht]⟩

/-- Witness for C1's amended theorem at the concrete name `"My Server"`. -/
theorem c1_internal_name_witness :
    generateInternalName "My Server"
      = ((("My Server" : String).toList.map Char.toLower).map
          fun c => if c ∈ goReplacedChars then '-' else c).asString
    ∧ generateInternalName "My Server" = generateInternalName "My Server" :=
  ⟨(c1_internal_name_amended "My Server").1,
   (c1_internal_name_amended "My Server").2 "My Server" rfl⟩

/-! ## Claim C3: transport resolver -/

/-- Claim C3: the transport resolver maps `("stdio", url)` to `("stdio", "")`
for any url, `("streamable-http", "")` to
`("streamable-http", "http://localhost:3000/mcp")`, `("streamable-http", u)`
with non-empty `u` to `("streamable-http", u)`, and returns a validation
error for every other transport type (for example `"http"`). -/
theorem c3_resolve_transport (url : String) :
    resolveTransport "stdio" url = .ok ("stdio", "")
    ∧ resolveTransport "streamable-http" ""
        = .ok ("streamable-http", "http://localhost:3000/mcp")
    ∧ (url ≠ "" → resolveTransport "streamable-http" url
        = .ok ("streamable-http", url))
    ∧ ∀ t : String, t ≠ "stdio" → t ≠ "streamable-http" →
        resolveTransport t url = .error "invalid transport" := by
  refine ⟨rfl, rfl, fun hu => ?_, fun t h1 h2 => ?_⟩
  · simp [resolveTransport, hu]
  · simp [resolveTransport, h1, h2]

/-- Witness for C3 at concrete transports and urls, including the `"http"`
example from the spec. -/
theorem c3_resolve_transport_witness :
    resolveTransport "stdio" "http://x/mcp" = .ok ("stdio", "")
    ∧ resolveTransport "streamable-http" "http://u"
        = .ok ("streamable-http", "http://u")
    ∧ resolveTransport "http" "http://u" = .error "invalid transport" :=
  ⟨(c3_resolve_transport "http://x/mcp").1,
   (c3_resolve_transport "http://u").2.2.1 (by decide),
   (c3_resolve_transport "http://u").2.2.2 "http" (by decide) (by decide)⟩

/-! ## Claim C8: agent-gateway image and version validation -/

/-- Claim C8: the agent-gateway image is
`ghcr.io/agentgateway/agentgateway:<v>-musl` where `<v>` is the
`TRANSPORT_ADAPTER_VERSION` value exactly when it is non-empty and matches
`^[A-Za-z0-9.\-]+$`, and `"0.9.0"` otherwise; `validateVersion` accepts
exactly the strings matching that regular expression. -/
theorem c8_gateway_image (v : String) :
    getAgentGatewayImage v
      = "ghcr.io/agentgateway/agentgateway:"
          ++ (if v ≠ "" ∧ versionRegexMatches v = true then v else "0.9.0")
          ++ "-musl"
    ∧ ((validateVersion v).isOk = true ↔ versionRegexMatches v = true) := by
  constructor
  · by_cases h0 : v = ""
    · subst h0; decide
    · by_cases hm : versionRegexMatches v
      · simp [getAgentGatewayImage, validateVersion, h0, hm,
          agentGatewayRepository]
      · simp [getAgentGatewayImage, validateVersion, h0, hm,
          agentGatewayRepository, defaultAgentGatewayVersion]
  · by_cases hm : versionRegexMatches v <;>
      simp [validateVersion, hm, Except.isOk, Except.toBool]

/-! ## Claim C2: compose image defaulting -/

/-- Claim C2, code-bug evidence: for a Local/http MCPServer with empty image
and command `uvx`, the compose translator emits a service whose image is
`getAgentGatewayImage()` (here the default agent-gateway image), not the
claimed `ghcr.io/astral-sh/uv:debian` — the Go code computes the defaulting
chain into a local variable it never uses in the returned service.  The
other parts of the claim hold: a stdio server yields no standalone service,
and an empty image with any other command is an error. -/
theorem c2_compose_image_bug :
    (TranslateRuntimeConfig "" "/wd" 21212
        { mcpServers := [{ name := "srv",
                           deployment := { image := "", port := 0, cmd := "uvx",
                                           args := [], env := [] },
                           transportType := "http" }] }).map
        (fun proj => proj.services.map (fun p => (p.1, p.2.image)))
      = .ok [("agent_gateway", "ghcr.io/agentgateway/agentgateway:0.9.0-musl"),
             ("srv", "ghcr.io/agentgateway/agentgateway:0.9.0-musl")]
    ∧ ("ghcr.io/agentgateway/agentgateway:0.9.0-musl" : String)
        ≠ "ghcr.io/astral-sh/uv:debian"
    ∧ (TranslateRuntimeConfig "" "/wd" 21212
        { mcpServers := [{ name := "stdio-srv",
                           deployment := { image := "img", port := 0, cmd := "",
                                           args := [], env := [] },
                           transportType := "stdio" }] }).map
        (fun proj => proj.services.map (·.1))
      = .ok ["agent_gateway"]
    ∧ (translateMCPServerToServiceConfig "" "/wd"
        { name := "bad",
          deployment := { image := "", port := 0, cmd := "python3",
                          args := [], env := [] },
          transportType := "http" }).isOk = false :=
  ⟨rfl, by decide, rfl, by decide⟩

/-! ## Claim C9: deployments store invariants -/

/-- Claim C9, counterexample: a row whose `server_name` is a single tab
character passes the SQL `CHECK (length(trim(server_name)) > 0)` constraint
(SQL `trim` strips only spaces) and is inserted, yet its name is empty after
trimming whitespace as the claim states. -/
theorem c9_deployments_counterexample :
    insertDeployment []
        { server_name := "\t", version := "1.0.0", deployed_at := 0,
          updated_at := 0, status := "active", config := "", prefer_remote := false,
          resource_type := "mcp" }
      = .ok [{ server_name := "\t", version := "1.0.0", deployed_at := 0,
               updated_at := 0, status := "active", config := "", prefer_remote := false,
               resource_type := "mcp" }]
    ∧ whitespaceTrim "\t" = "" := ⟨rfl, by decide⟩

/-- Claim C9 (amended): after every insert, update, or delete on a well-formed
deployments table, every row has `status ∈ {active, stopped, failed}`,
`server_name` and `version` non-empty after trimming space characters (SQL
`trim`), and `server_name` remains a primary key; every row modified by an
update has `updated_at` set to the current time, and unmodified rows are
untouched rows of the old table. -/
theorem c9_deployments_amended (table t' : List DeploymentRow) (r : DeploymentRow)
    (now : Nat) (p : DeploymentRow → Bool) (f : DeploymentRow → DeploymentRow)
    (hwf : DeploymentsWF table) :
    (insertDeployment table r = .ok t' → DeploymentsWF t')
    ∧ (updateDeployments now table p f = .ok t' →
        DeploymentsWF t' ∧ ∀ q ∈ t', q.updated_at = now ∨ (p q = false ∧ q ∈ table))
    ∧ DeploymentsWF (deleteDeployments table p) := by
  obtain ⟨hchecks, hnodup⟩ := hwf
  refine ⟨?_, ?_, ?_⟩
  · intro h
    unfold insertDeployment at h
    split_ifs at h with h1 h2
    have ht : table ++ [r] = t' := Except.ok.inj h
    subst ht
    constructor
    · intro q hq
      rcases List.mem_append.mp hq with hq | hq
      · exact hchecks q hq
      · have hqr : q = r := by simpa using hq
        subst hqr
        revert h2; cases rowChecksOk q <;> simp
    · rw [List.map_append]
      refine List.nodup_append.mpr ⟨hnodup, by simp, ?_⟩
      intro a ha hb
      have hb' : a = r.server_name := by simpa using hb
      subst hb'
      rcases List.mem_map.mp ha with ⟨q, hq, hqe⟩
      exact h1 (List.any_eq_true.mpr ⟨q, hq, by simp [hqe]⟩)
  · intro h
    unfold updateDeployments at h
    split_ifs at h with h1 h2
    have ht : applyUpdate now p f table = t' := Except.ok.inj h
    subst ht
    refine ⟨⟨?_, ?_⟩, ?_⟩
    · intro q hq
      have hall : (applyUpdate now p f table).all rowChecksOk = true := by
        revert h1
        cases (applyUpdate now p f table).all rowChecksOk <;> simp
      exact List.all_eq_true.mp hall q hq
    · simpa using h2
    · intro q hq
      rcases List.mem_map.mp hq with ⟨r0, hr0, he⟩
      by_cases hp : p r0
      · left
        rw [← he]
        simp [applyUpdate, hp]
      · right
        have hqr : q = r0 := by rw [← he]; simp [applyUpdate, hp]
        subst hqr
        exact ⟨by simpa using hp, hr0⟩
  · constructor
    · intro q hq
      exact hchecks q (List.mem_of_mem_filter hq)
    · exact List.Nodup.sublist (List.Sublist.map _ (List.filter_sublist table)) hnodup

/-- Witness for C9's amended theorem: inserting a concrete valid row into the
empty table yields a well-formed table. -/
theorem c9_deployments_witness :
    DeploymentsWF [{ server_name := "srv", version := "1.0.0", deployed_at := 3,
                     updated_at := 3, status := "active", config := "",
                     prefer_remote := false, resource_type := "mcp" }] :=
  (c9_deployments_amended []
      [{ server_name := "srv", version := "1.0.0", deployed_at := 3,
         updated_at := 3, status := "active", config := "",
         prefer_remote := false, resource_type := "mcp" }]
      { server_name := "srv", version := "1.0.0", deployed_at := 3,
        updated_at := 3, status := "active", config := "",
        prefer_remote := false, resource_type := "mcp" }
      5 (fun _ => false) id
      ⟨fun r hr => absurd hr (List.not_mem_nil r), List.nodup_nil⟩).1 rfl

/-! ## Claim C4: macOS kubeconfig patching -/

theorem arctl_path_ne_kube_path (h : String) :
    h ++ "/.arctl/kubeconfig" ≠ h ++ "/.kube/config" := by
  intro he
  have hd := congrArg String.data he
  rw [String.data_append, String.data_append] at hd
  have h2 := List.append_cancel_left hd
  exact absurd h2 (by decide)

/-- Claim C4: on macOS, kubeconfig patching is a no-op (the original compose
YAML is returned and nothing is written) when `~/.kube/config` contains
neither `localhost` nor `127.0.0.1`; otherwise (all steps succeeding) the
patched marshalled kubeconfig is written to `$HOME/.arctl/kubeconfig` and the
compose bind-mount source is rewritten to that path; every patched cluster
whose server URL contains `localhost`/`127.0.0.1` gets the URL rewritten to
`host.docker.internal`, `insecure-skip-tls-verify = true`, and its CA data
removed (other clusters and top-level keys are untouched); and the only file
ever written is `$HOME/.arctl/kubeconfig`, never `~/.kube/config`. -/
theorem c4_kubeconfig_patch (env : DaemonEnv) (composeYAML content homeDir : String)
    (kc : Kubeconfig) (patchedBytes : String) (hg : env.goos = "darwin") :
    (env.userHomeDir = some homeDir → env.kubeconfigContent = some content →
      strContains content "localhost" = false →
      strContains content "127.0.0.1" = false →
      getComposeYAML env composeYAML = ⟨composeYAML, []⟩)
    ∧ (env.userHomeDir = some homeDir → env.kubeconfigContent = some content →
      (strContains content "localhost" = true ∨ strContains content "127.0.0.1" = true) →
      env.parseYaml content = some kc →
      env.marshalYaml (patchKubeconfig kc) = some patchedBytes →
      env.mkdirOk = true → env.writeOk = true →
      getComposeYAML env composeYAML
        = ⟨composeYAML.replace "~/.kube/config:/root/.kube/config"
              (homeDir ++ "/.arctl/kubeconfig" ++ ":/root/.kube/config"),
           [(homeDir ++ "/.arctl/kubeconfig", patchedBytes)]⟩)
    ∧ (∀ cd : ClusterData,
        ((strContains cd.server "localhost" || strContains cd.server "127.0.0.1") = true →
          patchClusterData cd
            = { cd with
                server := (cd.server.replace "localhost" "host.docker.internal").replace
                  "127.0.0.1" "host.docker.internal"
                insecureSkipTlsVerify := some true
                certificateAuthorityData := none
                certificateAuthority := none })
        ∧ ((strContains cd.server "localhost" || strContains cd.server "127.0.0.1") = false →
            patchClusterData cd = cd))
    ∧ (∀ kc2 : Kubeconfig, ∀ cs, kc2.clusters = some cs →
        (patchKubeconfig kc2).clusters = some (cs.map (Option.map patchClusterData))
        ∧ (patchKubeconfig kc2).otherTopLevel = kc2.otherTopLevel)
    ∧ (env.userHomeDir = some homeDir →
        ∀ w ∈ (getComposeYAML env composeYAML).writes,
          w.1 = homeDir ++ "/.arctl/kubeconfig"
          ∧ w.1 ≠ homeDir ++ "/.kube/config") := by
  refine ⟨?_, ?_, ?_, ?_, ?_⟩
  · intro hh hc hl h7
    simp [getComposeYAML, hg, hh, hc, hl, h7]
  · intro hh hc hl hp hm hmk hwr
    have hl' : (!strContains content "localhost" && !strContains content "127.0.0.1") = false := by
      rcases hl with hl | hl <;> simp [hl]
    simp [getComposeYAML, hg, hh, hc, hl', hp, hm, hmk, hwr]
  · intro cd
    constructor
    · intro hcond
      simp [patchClusterData, hcond]
    · intro hcond
      simp [patchClusterData, hcond]
  · intro kc2 cs hcs
    simp [patchKubeconfig, hcs]
  · intro hh w hw
    simp only [getComposeYAML, hg, hh] at hw
    simp only [ne_eq] at hw
    repeat' split at hw
    all_goals try exact absurd hw (List.not_mem_nil w)
    all_goals simp only [] at hw
    · have hw' := List.mem_singleton.mp hw
      subst hw'
      exact ⟨rfl, arctl_path_ne_kube_path homeDir⟩

/-- Witness for C4 in a concrete environment where the kubeconfig references
`127.0.0.1` and every step succeeds. -/
theorem c4_kubeconfig_patch_witness :
    getComposeYAML c4WitnessEnv "x ~/.kube/config:/root/.kube/config y"
      = ⟨("x ~/.kube/config:/root/.kube/config y" : String).replace
            "~/.kube/config:/root/.kube/config"
            ("/Users/u" ++ "/.arctl/kubeconfig" ++ ":/root/.kube/config"),
         [("/Users/u" ++ "/.arctl/kubeconfig", "patched-kubeconfig")]⟩ :=
  (c4_kubeconfig_patch c4WitnessEnv "x ~/.kube/config:/root/.kube/config y"
      "server: https://127.0.0.1:6443" "/Users/u"
      c4WitnessKubeconfig "patched-kubeconfig" rfl).2.1 rfl rfl
      (Or.inr (by decide)) rfl rfl rfl rfl

/-! ## Claim C10: silent fallback of `getComposeYAML` -/

/-- Claim C10: on macOS, if any step of kubeconfig patching fails — home
directory lookup, reading `~/.kube/config`, YAML parsing, marshalling the
patched document, creating `~/.arctl`, or writing the patched file — then
`getComposeYAML` returns the original configured compose YAML unchanged (and
writes nothing); its type is total, so it never returns an error to its
caller. -/
theorem c10_compose_fallback (env : DaemonEnv) (composeYAML : String)
    (hg : env.goos = "darwin") :
    (env.userHomeDir = none → getComposeYAML env composeYAML = ⟨composeYAML, []⟩)
    ∧ (env.kubeconfigContent = none → getComposeYAML env composeYAML = ⟨composeYAML, []⟩)
    ∧ (∀ content, env.kubeconfigContent = some content →
        env.parseYaml content = none →
        getComposeYAML env composeYAML = ⟨composeYAML, []⟩)
    ∧ (∀ content kc, env.kubeconfigContent = some content →
        env.parseYaml content = some kc →
        env.marshalYaml (patchKubeconfig kc) = none →
        getComposeYAML env composeYAML = ⟨composeYAML, []⟩)
    ∧ (env.mkdirOk = false → getComposeYAML env composeYAML = ⟨composeYAML, []⟩)
    ∧ (env.writeOk = false → getComposeYAML env composeYAML = ⟨composeYAML, []⟩) := by
  refine ⟨?_, ?_, ?_, ?_, ?_, ?_⟩
  · intro h
    simp [getComposeYAML, hg, h]
  · intro h
    simp only [getComposeYAML, hg, ne_eq]
    repeat' split
    all_goals simp_all
  · intro content hc hp
    simp only [getComposeYAML, hg, ne_eq]
    repeat' split
    all_goals simp_all
  · intro content kc hc hp hm
    simp only [getComposeYAML, hg, ne_eq]
    repeat' split
    all_goals simp_all
  · intro hm
    simp only [getComposeYAML, hg, ne_eq]
    repeat' split
    all_goals simp_all
  · intro hw
    simp only [getComposeYAML, hg, ne_eq]
    repeat' split
    all_goals simp_all

/-- Witness for C10 in a concrete environment where the home-directory lookup
fails. -/
theorem c10_compose_fallback_witness :
    getComposeYAML c10WitnessEnv "compose" = ⟨"compose", []⟩ :=
  (c10_compose_fallback c10WitnessEnv "compose" rfl).1 rfl

/-! ## Claims C5 and C6: OCI validator -/

theorem listContainsSeq_nil_pat (hay : List Char) : listContainsSeq hay [] = true := by
  cases hay <;> simp [listContainsSeq, listStartsWith]

theorem listStartsWith_append (hay ext pat : List Char)
    (h : listStartsWith hay pat = true) : listStartsWith (hay ++ ext) pat = true := by
  induction pat generalizing hay with
  | nil => cases hay <;> simp [listStartsWith]
  | cons b bs ih =>
    cases hay with
    | nil => simp [listStartsWith] at h
    | cons a as =>
      simp only [listStartsWith, Bool.and_eq_true] at h ⊢
      exact ⟨h.1, ih as h.2⟩

theorem listContainsSeq_append (hay ext pat : List Char)
    (h : listContainsSeq hay pat = true) : listContainsSeq (hay ++ ext) pat = true := by
  induction hay with
  | nil =>
    simp only [listContainsSeq, List.isEmpty_iff] at h
    subst h
    exact listContainsSeq_nil_pat ext
  | cons a as ih =>
    simp only [listContainsSeq, Bool.or_eq_true] at h
    rcases h with h | h
    · cases pat with
      | nil => exact listContainsSeq_nil_pat _
      | cons b bs =>
        have hsw := listStartsWith_append (a :: as) ext (b :: bs) h
        simp only [List.cons_append, listContainsSeq, Bool.or_eq_true]
        left
        simpa using hsw
    · simp only [List.cons_append, listContainsSeq, Bool.or_eq_true]
      right
      exact ih h

theorem strContains_append_left (s t pat : String)
    (h : strContains s pat = true) : strContains (s ++ t) pat = true := by
  unfold strContains at h ⊢
  have hd : (s ++ t).toList = s.toList ++ t.toList := String.data_append s t
  rw [hd]
  exact listContainsSeq_append _ _ _ h

theorem parseOCIRef_ne_empty {ident host : String}
    (hp : parseOCIRef ident = some host) : ¬ ident = "" := by
  intro h
  rw [h] at hp
  simp [parseOCIRef] at hp

/-- Claim C5: for a well-formed OCI package (no old-format fields) whose
identifier parses with a registry host outside the allowlist, `ValidateOCI`
fails with a message containing `unsupported OCI registry`; with an
allowlisted host the result is either success or an annotation failure.  The
concrete conjuncts check the allowlist on the spec's examples, including the
docker.io defaulting of host-less identifiers. -/
theorem c5_oci_allowlist (pkg : OCIPackage) (serverName : String)
    (ann : Option String) (host : String)
    (hb : pkg.registryBaseUrl = "") (hv : pkg.version = "") (hf : pkg.fileSha256 = "")
    (hp : parseOCIRef pkg.identifier = some host) :
    (ociHostAllowed host = false →
      ∃ msg, ValidateOCI pkg serverName ann = .error msg
        ∧ strContains msg "unsupported OCI registry" = true)
    ∧ (ociHostAllowed host = true →
      ValidateOCI pkg serverName ann = .ok ()
      ∨ ∃ msg, ValidateOCI pkg serverName ann = .error msg
          ∧ (strContains msg "missing required annotation" = true
             ∨ strContains msg "ownership validation failed" = true))
    ∧ refRegistryHost "gcr.io/test/image:latest" = "gcr.io"
    ∧ ociHostAllowed "gcr.io" = false
    ∧ ociHostAllowed "quay.io" = false
    ∧ ociHostAllowed "public.ecr.aws" = false
    ∧ ociHostAllowed "docker.io" = true
    ∧ ociHostAllowed "ghcr.io" = true
    ∧ ociHostAllowed "us-central1-docker.pkg.dev" = true
    ∧ refRegistryHost "library/hello-world:latest" = "docker.io" := by
  have hne := parseOCIRef_ne_empty hp
  refine ⟨?_, ?_, by decide, by decide, by decide, by decide, by decide,
    by decide, by decide, by decide⟩
  · intro hnal
    refine ⟨"unsupported OCI registry: " ++ host, ?_, ?_⟩
    · simp [ValidateOCI, hne, hb, hv, hf, hp, hnal]
    · exact strContains_append_left _ _ _ (by decide)
  · intro hal
    cases ann with
    | none =>
      right
      refine ⟨"missing required annotation io.modelcontextprotocol.server.name", ?_, ?_⟩
      · simp [ValidateOCI, hne, hb, hv, hf, hp, hal]
      · left; decide
    | some v =>
      by_cases hveq : v = serverName
      · left
        simp [ValidateOCI, hne, hb, hv, hf, hp, hal, hveq]
      · right
        refine ⟨"ownership validation failed. Expected annotation " ++
          "io.modelcontextprotocol.server.name=" ++ serverName ++ ", got " ++ v, ?_, ?_⟩
        · simp [ValidateOCI, hne, hb, hv, hf, hp, hal, hveq]
        · right
          exact strContains_append_left _ _ _ (strContains_append_left _ _ _
            (strContains_append_left _ _ _ (strContains_append_left _ _ _ (by decide))))

/-- Witness for C5: `gcr.io/x/y` is rejected with `unsupported OCI registry`,
while `docker.io/library/alpine:latest` passes the host check and any failure
concerns the annotation. -/
theorem c5_oci_allowlist_witness :
    (∃ msg, ValidateOCI
        { identifier := "gcr.io/test/image:latest", registryBaseUrl := "",
          version := "", fileSha256 := "" } "com.example/test" none = .error msg
      ∧ strContains msg "unsupported OCI registry" = true)
    ∧ (ValidateOCI
        { identifier := "docker.io/library/alpine:latest", registryBaseUrl := "",
          version := "", fileSha256 := "" } "com.example/test" none = .ok ()
      ∨ ∃ msg, ValidateOCI
          { identifier := "docker.io/library/alpine:latest", registryBaseUrl := "",
            version := "", fileSha256 := "" } "com.example/test" none = .error msg
        ∧ (strContains msg "missing required annotation" = true
           ∨ strContains msg "ownership validation failed" = true)) :=
  ⟨(c5_oci_allowlist
      { identifier := "gcr.io/test/image:latest", registryBaseUrl := "",
        version := "", fileSha256 := "" } "com.example/test" none "gcr.io"
      rfl rfl rfl (by decide)).1 (by decide),
   (c5_oci_allowlist
      { identifier := "docker.io/library/alpine:latest", registryBaseUrl := "",
        version := "", fileSha256 := "" } "com.example/test" none "docker.io"
      rfl rfl rfl (by decide)).2.1 (by decide)⟩

/-- Claim C6: with an allowlisted, parseable OCI reference, a missing
canonical MCP annotation fails with `missing required annotation`; a present
annotation differing from the Server name fails with a message containing
both `ownership validation failed` and `Expected annotation`; an annotation
equal to the Server name validates. -/
theorem c6_oci_ownership (pkg : OCIPackage) (serverName host : String)
    (hb : pkg.registryBaseUrl = "") (hv : pkg.version = "") (hf : pkg.fileSha256 = "")
    (hp : parseOCIRef pkg.identifier = some host)
    (hal : ociHostAllowed host = true) :
    (∃ msg, ValidateOCI pkg serverName none = .error msg
      ∧ strContains msg "missing required annotation" = true)
    ∧ (∀ v, v ≠ serverName →
        ∃ msg, ValidateOCI pkg serverName (some v) = .error msg
          ∧ strContains msg "ownership validation failed" = true
          ∧ strContains msg "Expected annotation" = true)
    ∧ ValidateOCI pkg serverName (some serverName) = .ok () := by
  have hne := parseOCIRef_ne_empty hp
  refine ⟨?_, ?_, ?_⟩
  · refine ⟨"missing required annotation io.modelcontextprotocol.server.name", ?_, by decide⟩
    simp [ValidateOCI, hne, hb, hv, hf, hp, hal]
  · intro v hveq
    refine ⟨"ownership validation failed. Expected annotation " ++
      "io.modelcontextprotocol.server.name=" ++ serverName ++ ", got " ++ v, ?_, ?_, ?_⟩
    · simp [ValidateOCI, hne, hb, hv, hf, hp, hal, hveq]
    · exact strContains_append_left _ _ _ (strContains_append_left _ _ _
        (strContains_append_left _ _ _ (strContains_append_left _ _ _ (by decide))))
    · exact strContains_append_left _ _ _ (strContains_append_left _ _ _
        (strContains_append_left _ _ _ (strContains_append_left _ _ _ (by decide))))
  · simp [ValidateOCI, hne, hb, hv, hf, hp, hal]

/-- Witness for C6 on the spec's github-mcp-server scenarios: matching
annotation validates; mismatching Server name fails with both message
fragments. -/
theorem c6_oci_ownership_witness :
    ValidateOCI
        { identifier := "ghcr.io/github/github-mcp-server:latest", registryBaseUrl := "",
          version := "", fileSha256 := "" }
        "io.github.github/github-mcp-server"
        (some "io.github.github/github-mcp-server") = .ok ()
    ∧ (∃ msg, ValidateOCI
        { identifier := "ghcr.io/github/github-mcp-server:latest", registryBaseUrl := "",
          version := "", fileSha256 := "" }
        "io.github.github/github-mcp-server-mismatch"
        (some "io.github.github/github-mcp-server") = .error msg
      ∧ strContains msg "ownership validation failed" = true
      ∧ strContains msg "Expected annotation" = true) :=
  ⟨(c6_oci_ownership
      { identifier := "ghcr.io/github/github-mcp-server:latest", registryBaseUrl := "",
        version := "", fileSha256 := "" }
      "io.github.github/github-mcp-server" "ghcr.io"
      rfl rfl rfl (by decide) (by decide)).2.2,
   (c6_oci_ownership
      { identifier := "ghcr.io/github/github-mcp-server:latest", registryBaseUrl := "",
        version := "", fileSha256 := "" }
      "io.github.github/github-mcp-server-mismatch" "ghcr.io"
      rfl rfl rfl (by decide) (by decide)).2.1
      "io.github.github/github-mcp-server" (by decide)⟩

/-! ## Claim C7: Kubernetes agent ConfigMaps -/

theorem strAppend_right_cancel {s t u : String} (h : s ++ u = t ++ u) : s = t := by
  cases s with
  | mk l1 =>
    cases t with
    | mk l2 =>
      have hd := congrArg String.data h
      rw [String.data_append, String.data_append] at hd
      exact congrArg String.mk (List.append_cancel_right hd)

theorem decodeHeaders_encode (hs : List (String × String)) :
    decodeHeaders (hs.map fun p => (p.1, .str p.2)) = some hs := by
  induction hs with
  | nil => rfl
  | cons p t ih =>
    cases p with
    | mk k v => simp [decodeHeaders, ih]

theorem decodeRef_encode (r : ResolvedMCPServerConfig) :
    decodeRef (encodeRef r) = some r := by
  cases r with
  | mk n t u hs =>
    simp [decodeRef, encodeRef, encodeHeaders, decodeHeaders_encode]

theorem decodeRefList_encode (rs : List ResolvedMCPServerConfig) :
    decodeRefList (rs.map encodeRef) = some rs := by
  induction rs with
  | nil => rfl
  | cons r t ih => simp [decodeRefList, decodeRef_encode, ih]

theorem decodeRefs_encode (rs : List ResolvedMCPServerConfig) :
    decodeRefs (encodeRefs rs) = some rs := by
  simp [decodeRefs, encodeRefs, decodeRefList_encode]

theorem translateAgentK8s_name (a : KAgent) :
    (translateAgentK8s a).name = agentFullName a := by
  unfold translateAgentK8s
  split <;> rfl

theorem agentConfigMap_some {a : KAgent} {cm : KConfigMap}
    (h : agentConfigMap a = some cm) :
    a.resolvedMCPServers ≠ []
    ∧ cm.name = agentFullName a ++ "-mcp-config"
    ∧ cm.data = [("mcp-servers.json", encodeRefs a.resolvedMCPServers)] := by
  unfold agentConfigMap at h
  split at h
  · simp at h
  · rename_i hne
    have hcm := Option.some.inj h
    subst hcm
    refine ⟨?_, rfl, rfl⟩
    intro hnil
    rw [hnil] at hne
    simp at hne

theorem agentCR_filter_length (agents : List KAgent) (a : KAgent)
    (hn : (agents.map agentFullName).Nodup) (ha : a ∈ agents) :
    ((agents.map translateAgentK8s).filter
        (fun cr => cr.name = agentFullName a)).length = 1 := by
  induction agents with
  | nil => cases ha
  | cons b t ih =>
    rw [List.map_cons] at hn
    have hb_notmem : agentFullName b ∉ t.map agentFullName := (List.nodup_cons.mp hn).1
    have hnt : (t.map agentFullName).Nodup := (List.nodup_cons.mp hn).2
    rcases List.mem_cons.mp ha with hab | hat
    · subst hab
      rw [List.map_cons, List.filter_cons]
      have hname : (decide ((translateAgentK8s a).name = agentFullName a)) = true := by
        simp [translateAgentK8s_name]
      rw [if_pos hname]
      have hrest : (t.map translateAgentK8s).filter
          (fun cr => cr.name = agentFullName a) = [] := by
        rw [List.filter_eq_nil_iff]
        intro cr hcr
        rcases List.mem_map.mp hcr with ⟨c, hc, hce⟩
        subst hce
        simp only [translateAgentK8s_name, decide_eq_true_eq]
        intro heq
        exact hb_notmem (heq ▸ List.mem_map_of_mem agentFullName hc)
      rw [hrest]
      rfl
    · rw [List.map_cons, List.filter_cons]
      have hba : agentFullName b ≠ agentFullName a := by
        intro heq
        exact hb_notmem (heq ▸ List.mem_map_of_mem agentFullName hat)
      have hname : (decide ((translateAgentK8s b).name = agentFullName a)) = false := by
        simp [translateAgentK8s_name, hba]
      rw [if_neg (by simp [hname])]
      exact ih hnt hat

theorem configMap_filter_length (agents : List KAgent) (a : KAgent)
    (hn : (agents.map agentFullName).Nodup) (ha : a ∈ agents)
    (hne : a.resolvedMCPServers ≠ []) :
    ((agents.filterMap agentConfigMap).filter
        (fun cm => cm.name = agentFullName a ++ "-mcp-config")).length = 1 := by
  induction agents with
  | nil => cases ha
  | cons b t ih =>
    rw [List.map_cons] at hn
    have hb_notmem : agentFullName b ∉ t.map agentFullName := (List.nodup_cons.mp hn).1
    have hnt : (t.map agentFullName).Nodup := (List.nodup_cons.mp hn).2
    rcases List.mem_cons.mp ha with hab | hat
    · subst hab
      have hcma : agentConfigMap a
          = some { name := agentFullName a ++ "-mcp-config"
                   data := [("mcp-servers.json", encodeRefs a.resolvedMCPServers)] } := by
        unfold agentConfigMap
        rw [if_neg (by simpa using hne)]
      rw [List.filterMap_cons_some hcma, List.filter_cons]
      rw [if_pos (by simp)]
      have hrest : (t.filterMap agentConfigMap).filter
          (fun cm => cm.name = agentFullName a ++ "-mcp-config") = [] := by
        rw [List.filter_eq_nil_iff]
        intro cm hcm
        rcases List.mem_filterMap.mp hcm with ⟨c, hc, hcc⟩
        obtain ⟨_, hcname, _⟩ := agentConfigMap_some hcc
        simp only [hcname, decide_eq_true_eq]
        intro heq
        have hfc : agentFullName c = agentFullName a := strAppend_right_cancel heq
        exact hb_notmem (hfc ▸ List.mem_map_of_mem agentFullName hc)
      rw [hrest]
      rfl
    · have hba : agentFullName b ≠ agentFullName a := by
        intro heq
        exact hb_notmem (heq ▸ List.mem_map_of_mem agentFullName hat)
      cases hcmb : agentConfigMap b with
      | none =>
        rw [List.filterMap_cons_none hcmb]
        exact ih hnt hat
      | some cmB =>
        obtain ⟨_, hbname, _⟩ := agentConfigMap_some hcmb
        rw [List.filterMap_cons_some hcmb, List.filter_cons]
        rw [if_neg (by
          simp only [hbname, decide_eq_true_eq]
          intro heq
          exact hba (strAppend_right_cancel heq))]
        exact ih hnt hat

/-- Claim C7: for every desired state (with distinct agent resource names)
and every agent in it that references at least one MCP server, the Kubernetes
translator emits exactly one Agent resource named `<name>-<version>` and
exactly one ConfigMap named `<name>-<version>-mcp-config` whose
`mcp-servers.json` entry is the JSON encoding of the agent's resolved MCP
references (decoding recovers them, URLs and headers included), and that
Agent carries a `mcp-config` volume backed by the ConfigMap mounted at
`/config`; an agent without MCP references produces no such ConfigMap and no
volumes. -/
theorem c7_k8s_agent_configmap (d : KDesiredState)
    (hn : (d.agents.map agentFullName).Nodup) (a : KAgent) (ha : a ∈ d.agents) :
    ((translateRuntimeConfigK8s d).agents.filter
        (fun cr => cr.name = agentFullName a)).length = 1
    ∧ (a.resolvedMCPServers ≠ [] →
        ((translateRuntimeConfigK8s d).configMaps.filter
            (fun cm => cm.name = agentFullName a ++ "-mcp-config")).length = 1
        ∧ (∀ cm ∈ (translateRuntimeConfigK8s d).configMaps,
            cm.name = agentFullName a ++ "-mcp-config" →
            cm.data = [("mcp-servers.json", encodeRefs a.resolvedMCPServers)])
        ∧ decodeRefs (encodeRefs a.resolvedMCPServers) = some a.resolvedMCPServers
        ∧ (∀ cr ∈ (translateRuntimeConfigK8s d).agents, cr.name = agentFullName a →
            cr.volumes = [{ name := "mcp-config",
                            configMapName := agentFullName a ++ "-mcp-config" }]
            ∧ cr.volumeMounts = [{ name := "mcp-config", mountPath := "/config" }]))
    ∧ (a.resolvedMCPServers = [] →
        (∀ cm ∈ (translateRuntimeConfigK8s d).configMaps,
            cm.name ≠ agentFullName a ++ "-mcp-config")
        ∧ (∀ cr ∈ (translateRuntimeConfigK8s d).agents, cr.name = agentFullName a →
            cr.volumes = [] ∧ cr.volumeMounts = [])) := by
  refine ⟨agentCR_filter_length d.agents a hn ha, ?_, ?_⟩
  · intro hne
    refine ⟨configMap_filter_length d.agents a hn ha hne, ?_,
      decodeRefs_encode a.resolvedMCPServers, ?_⟩
    · intro cm hcm hname
      rcases List.mem_filterMap.mp hcm with ⟨c, hc, hcc⟩
      obtain ⟨_, hcname, hcdata⟩ := agentConfigMap_some hcc
      have hfc : agentFullName c = agentFullName a :=
        strAppend_right_cancel (hcname ▸ hname)
      have hca : c = a := List.inj_on_of_nodup_map hn hc ha hfc
      rw [hcdata, hca]
    · intro cr hcr hname
      rcases List.mem_map.mp hcr with ⟨c, hc, hce⟩
      have hfc : agentFullName c = agentFullName a := by
        rw [← translateAgentK8s_name, hce, hname]
      have hca : c = a := List.inj_on_of_nodup_map hn hc ha hfc
      subst hca
      subst hce
      have hie : c.resolvedMCPServers.isEmpty = false := by
        simp [List.isEmpty_iff, hne]
      constructor <;> simp [translateAgentK8s, hie]
  · intro hnil
    constructor
    · intro cm hcm hname
      rcases List.mem_filterMap.mp hcm with ⟨c, hc, hcc⟩
      obtain ⟨hcne, hcname, _⟩ := agentConfigMap_some hcc
      have hfc : agentFullName c = agentFullName a :=
        strAppend_right_cancel (hcname ▸ hname)
      have hca : c = a := List.inj_on_of_nodup_map hn hc ha hfc
      rw [hca] at hcne
      exact hcne hnil
    · intro cr hcr hname
      rcases List.mem_map.mp hcr with ⟨c, hc, hce⟩
      have hfc : agentFullName c = agentFullName a := by
        rw [← translateAgentK8s_name, hce, hname]
      have hca : c = a := List.inj_on_of_nodup_map hn hc ha hfc
      subst hca
      subst hce
      have hie : c.resolvedMCPServers.isEmpty = true := by
        simp [List.isEmpty_iff, hnil]
      constructor <;> simp [translateAgentK8s, hie]

/-- Witness for C7 on the spec's concrete scenario: one `test-agent v1` with
two resolved MCP references (one command, one remote with a header). -/
theorem c7_k8s_agent_configmap_witness :
    ((translateRuntimeConfigK8s c7WitnessState).agents.filter
        (fun cr => cr.name = agentFullName c7WitnessAgent)).length = 1
    ∧ ((translateRuntimeConfigK8s c7WitnessState).configMaps.filter
        (fun cm => cm.name = agentFullName c7WitnessAgent ++ "-mcp-config")).length = 1
    ∧ decodeRefs (encodeRefs c7WitnessAgent.resolvedMCPServers)
        = some c7WitnessAgent.resolvedMCPServers :=
  ⟨(c7_k8s_agent_configmap c7WitnessState (by decide) c7WitnessAgent
      (List.mem_singleton.mpr rfl)).1,
   ((c7_k8s_agent_configmap c7WitnessState (by decide) c7WitnessAgent
      (List.mem_singleton.mpr rfl)).2.1 (by decide)).1,
   ((c7_k8s_agent_configmap c7WitnessState (by decide) c7WitnessAgent
      (List.mem_singleton.mpr rfl)).2.1 (by decide)).2.2.1⟩

end AgentRegistry
